import Mathlib

/-!
Shallow embedding of the packet interception glue in src/netfilter.h
(go-netfilter-queue): the packet dispatch bridge nf_callback, queue creation
CreateQueue, the fail-open configuration SetQueueFailOpen, the stop flag and
stop_reading_packets, and the blocking receive loop Run.

Modelling conventions:
- machine integers are Nat (unsigned) or Int (signed C int), with explicit
  % 2 ^ w at the places the C code converts between widths;
- the results of the external libnetfilter_queue accessors
  (nfq_get_msg_packet_hdr, nfq_get_payload) and of the recv system call are
  inputs of the model: a Notification records what the accessors would yield
  for one decoded packet notification, a BufEvent records what one iteration
  of the receive loop observes;
- effects are reified: nf_callback returns, besides its C return value, the
  trace of external calls it makes (header access, payload access, the
  go_callback invocation, and verdict calls, which never occur in this code);
  Run returns the trace of socket-level actions and the accumulated
  nf_callback traces;
- dereferencing a NULL pointer (the unchecked header pointer in nf_callback)
  is modelled as the distinguished outcome NfResult.crash, which aborts
  everything after it;
- the process-wide mutable state (the stop flag and errno) is an explicit
  NetfilterState threaded through Run; a concurrent stop_reading_packets
  call from another thread is modelled as a per-iteration input bit
  (BufEvent.stopWrite) applied between the receive and the stop check.
-/

namespace GoNfq

/-- SOL_NETLINK from linux/socket.h. -/
def SOL_NETLINK : Nat := 270

/-- NETLINK_NO_ENOBUFS from linux/netlink.h: report, rather than silently
drop on, netlink buffer overruns. -/
def NETLINK_NO_ENOBUFS : Nat := 5

/-- NFQA_CFG_F_FAIL_OPEN from linux/netfilter/nfnetlink_queue.h. -/
def NFQA_CFG_F_FAIL_OPEN : Nat := 1

/-- ntohl on a little-endian host: reverse the four bytes of a 32-bit
value, converting network byte order to host byte order. -/
def ntohl (x : Nat) : Nat :=
  let b0 := x % 256
  let b1 := x / 256 % 256
  let b2 := x / 256 ^ 2 % 256
  let b3 := x / 256 ^ 3 % 256
  ((b0 * 256 + b1) * 256 + b2) * 256 + b3

/-- The nfqnl_msg_packet_hdr of a notification; packet_id holds the 32-bit
packet id in network byte order, as stored by the kernel. -/
structure PacketHdr where
  packet_id : Nat
  deriving Repr, DecidableEq

/-- One decoded packet notification (struct nfq_data), described by what the
libnetfilter_queue accessors yield on it: hdr is the result of
nfq_get_msg_packet_hdr (none = NULL pointer), payload is the payload buffer
nfq_get_payload would expose (none = extraction fails). -/
structure Notification where
  hdr : Option PacketHdr
  payload : Option (List Nat)
  deriving Repr, DecidableEq

/-- The argument tuple of one go_callback invocation: packet id, payload
pointer (none = NULL), payload length as passed (a C int), binding index,
and the queue handle (modelled as an opaque Nat). -/
structure GoCall where
  id : Nat
  data : Option (List Nat)
  len : Int
  idx : Nat
  qh : Nat
  deriving Repr, DecidableEq

/-- External calls nf_callback can make, in order. -/
inductive NfAction where
  | getMsgPacketHdr
  | getPayload
  | callGo (c : GoCall)
  | setVerdict (qh : Nat) (id : Nat) (verdict : Nat)
  deriving Repr, DecidableEq

/-- Outcome of nf_callback: a normal C return value, or a crash from
dereferencing the NULL header pointer. -/
inductive NfResult where
  | ret (r : Int)
  | crash
  deriving Repr, DecidableEq

/-- nfq_get_payload: on success returns the payload length and sets the
buffer pointer; on failure returns -1 and leaves the pointer NULL. -/
def nfq_get_payload (nfa : Notification) : Int × Option (List Nat) :=
  match nfa.payload with
  | some bytes => ((bytes.length : Int), some bytes)
  | none => (-1, none)

/-- nf_callback from src/netfilter.h. If the stop flag is set it returns -1
at once. Otherwise it fetches the packet header (an absent header means the
subsequent ph->packet_id dereference crashes), converts the packet id with
ntohl, fetches the payload, truncates the registered callback token to 32
bits to recover the binding index, invokes go_callback once with all of it,
and returns 0. The second component is the trace of external calls made. -/
def nf_callback (stop : Bool) (qh : Nat) (nfa : Notification) (cb_func : Nat) :
    NfResult × List NfAction :=
  if stop then (.ret (-1), [])
  else
    match nfa.hdr with
    | none => (.crash, [.getMsgPacketHdr])
    | some ph =>
      (.ret 0, [.getMsgPacketHdr, .getPayload,
        .callGo ⟨ntohl ph.packet_id, (nfq_get_payload nfa).2, (nfq_get_payload nfa).1,
                 cb_func % 2 ^ 32, qh⟩])

/-- Recogniser for go_callback invocations in a trace. -/
def NfAction.isCallGo : NfAction → Bool
  | .callGo _ => true
  | _ => false

/-- The libnetfilter_queue decode step driven by nfq_handle_packet: it walks
the packet notifications decoded from one received buffer in order, invoking
the registered callback on each; a negative callback return aborts the rest
of the buffer. The Bool result records whether the callback crashed. -/
def nfq_handle_packet (stop : Bool) (qh cb : Nat) :
    List Notification → List NfAction × Bool
  | [] => ([], false)
  | n :: rest =>
    let res := nf_callback stop qh n cb
    match res.1 with
    | .crash => (res.2, true)
    | .ret r =>
      if r < 0 then (res.2, false)
      else
        let h2 := nfq_handle_packet stop qh cb rest
        (res.2 ++ h2.1, h2.2)

/-- The queue registration CreateQueue performs: nfq_create_queue is called
with the 16-bit queue number and, as the callback token, the 32-bit binding
index cast through uintptr_t (value-preserving). -/
structure QueueReg where
  queueNum : Nat
  cb_token : Nat
  deriving Repr, DecidableEq

/-- CreateQueue from src/netfilter.h: registers nf_callback for the queue,
encoding the binding index idx as the opaque callback token
(void*)((uintptr_t)idx). The handle argument h is opaque. -/
def CreateQueue (h : Nat) (queue : Nat) (idx : Nat) : QueueReg :=
  ⟨queue % 2 ^ 16, idx % 2 ^ 32⟩

/-- The flag request SetQueueFailOpen issues via nfq_set_queue_flags:
mask = flags = NFQA_CFG_F_FAIL_OPEN. -/
structure FlagsReq where
  mask : Nat
  flags : Nat
  deriving Repr, DecidableEq

/-- SetQueueFailOpen from src/netfilter.h. -/
def SetQueueFailOpen : FlagsReq :=
  ⟨NFQA_CFG_F_FAIL_OPEN, NFQA_CFG_F_FAIL_OPEN⟩

/-- The process-wide mutable state the code in src/netfilter.h touches: the
static stop flag and errno. -/
structure NetfilterState where
  stop : Bool
  errno : Nat
  deriving Repr, DecidableEq

/-- stop_reading_packets from src/netfilter.h: stop = 1. -/
def stop_reading_packets (s : NetfilterState) : NetfilterState :=
  { s with stop := true }

/-- What one iteration of Run's receive loop observes: the recv return
value rv, the error code err that recv sets when it fails (errno is
untouched when recv succeeds), whether a concurrent stop_reading_packets
call lands before this iteration's stop check, and the packet
notifications the decode step finds in the received buffer. -/
structure BufEvent where
  rv : Int
  err : Nat
  stopWrite : Bool
  msgs : List Notification
  deriving Repr, DecidableEq

/-- Socket-level actions of Run, in order. -/
inductive RunAction where
  | setsockopt (fd : Nat) (level : Nat) (optname : Nat) (optval : Nat)
  | recv (rv : Int)
  | handlePacket (rv : Int)
  deriving Repr, DecidableEq

/-- Outcome of Run: a normal return of the current errno, a crash inside
the dispatch bridge, or blocked (the event trace ran out while the loop
would still be waiting in recv). -/
inductive RunOutcome where
  | returned (errno : Nat)
  | crashed
  | blocked
  deriving Repr, DecidableEq

/-- Apply a concurrent stop_reading_packets call, when the event carries
one, to the state. -/
def observe (s : NetfilterState) (e : BufEvent) : NetfilterState :=
  if e.stopWrite then stop_reading_packets s else s

/-- Effect of the recv call on errno: set to the event's error code when
recv fails, untouched otherwise. -/
def afterRecv (s : NetfilterState) (e : BufEvent) : NetfilterState :=
  if e.rv < 0 then ⟨s.stop, e.err⟩ else s

/-- The while loop of Run from src/netfilter.h, driven by the event trace.
The C condition is ((rv = recv(...)) && rv >= 0); inside the loop the stop
flag is checked and, when set, errno is returned; otherwise the buffer goes
to nfq_handle_packet and the loop repeats. When the condition fails, errno
is returned. Results: socket-level trace, accumulated nf_callback traces,
final state, outcome. -/
def RunLoop (qh cb : Nat) :
    NetfilterState → List BufEvent →
    List RunAction × List NfAction × NetfilterState × RunOutcome
  | s, [] => ([], [], s, .blocked)
  | s, e :: rest =>
    let s2 := afterRecv (observe s e) e
    if e.rv ≠ 0 ∧ 0 ≤ e.rv then
      if s2.stop then ([.recv e.rv], [], s2, .returned s2.errno)
      else
        let hp := nfq_handle_packet s2.stop qh cb e.msgs
        if hp.2 then ([.recv e.rv, .handlePacket e.rv], hp.1, s2, .crashed)
        else
          let r := RunLoop qh cb s2 rest
          (.recv e.rv :: .handlePacket e.rv :: r.1, hp.1 ++ r.2.1, r.2.2.1, r.2.2.2)
    else ([.recv e.rv], [], s2, .returned s2.errno)

/-- Run from src/netfilter.h: sets the NETLINK_NO_ENOBUFS socket option on
fd (with option value 1) and then enters the receive loop. The initial
state's errno is the errno value after the setsockopt call. -/
def Run (fd qh cb : Nat) (s : NetfilterState) (events : List BufEvent) :
    List RunAction × List NfAction × NetfilterState × RunOutcome :=
  (.setsockopt fd SOL_NETLINK NETLINK_NO_ENOBUFS 1 :: (RunLoop qh cb s events).1,
   (RunLoop qh cb s events).2)

/-- The operations of the header applied to the process-wide state. Only
stop_reading_packets and the receive loop read or write it; nf_callback
reads the stop flag but never writes it, and CreateQueue and
SetQueueFailOpen only talk to the kernel. -/
inductive Op where
  | runLoop (qh cb : Nat) (events : List BufEvent)
  | callback (qh : Nat) (nfa : Notification) (cb : Nat)
  | requestStop
  | createQueue (h q idx : Nat)
  | setFailOpen
  deriving Repr

/-- State effect of each operation, as translated from src/netfilter.h:
only stop_reading_packets assigns the stop flag; nf_callback, CreateQueue
and SetQueueFailOpen contain no assignment to it. -/
def applyOp (s : NetfilterState) : Op → NetfilterState
  | .runLoop qh cb events => (RunLoop qh cb s events).2.2.1
  | .callback _ _ _ => s
  | .requestStop => stop_reading_packets s
  | .createQueue _ _ _ => s
  | .setFailOpen => s

/-- Spec-side description of loop exit, in the words of the claim: the loop
exits at the first event whose receive result is zero bytes or negative, or
whose receive succeeded while the stop flag was observed set; the observed
flag is the initial one or-ed with the stop writes seen so far. -/
def claimedExitEvent (stop0 : Bool) : List BufEvent → Option BufEvent
  | [] => none
  | e :: rest =>
    let st := stop0 || e.stopWrite
    if e.rv = 0 ∨ e.rv < 0 ∨ (0 < e.rv ∧ st = true) then some e
    else claimedExitEvent st rest

/-! Helper lemmas shared by the claim theorems. -/

theorem observe_stop (s : NetfilterState) (e : BufEvent) :
    (observe s e).stop = (s.stop || e.stopWrite) := by
  by_cases hw : e.stopWrite <;> simp [observe, stop_reading_packets, hw]

theorem observe_errno (s : NetfilterState) (e : BufEvent) :
    (observe s e).errno = s.errno := by
  by_cases hw : e.stopWrite <;> simp [observe, stop_reading_packets, hw]

theorem afterRecv_stop (s : NetfilterState) (e : BufEvent) :
    (afterRecv s e).stop = s.stop := by
  by_cases hr : e.rv < 0 <;> simp [afterRecv, hr]

theorem afterRecv_errno (s : NetfilterState) (e : BufEvent) :
    (afterRecv s e).errno = if e.rv < 0 then e.err else s.errno := by
  by_cases hr : e.rv < 0 <;> simp [afterRecv, hr]

theorem handle_no_crash (qh cb : Nat) :
    ∀ msgs : List Notification, (∀ m ∈ msgs, m.hdr ≠ none) →
    (nfq_handle_packet false qh cb msgs).2 = false := by
  intro msgs
  induction msgs with
  | nil => intro _; simp [nfq_handle_packet]
  | cons n rest ih =>
    intro hwf
    obtain ⟨ph, hph⟩ := Option.ne_none_iff_exists'.mp (hwf n (by simp))
    have hrest := ih (fun m hm => hwf m (by simp [hm]))
    simp [nfq_handle_packet, nf_callback, hph, hrest]

theorem RunLoop_stop_monotone (qh cb : Nat) :
    ∀ (events : List BufEvent) (s : NetfilterState), s.stop = true →
    ((RunLoop qh cb s events).2.2.1).stop = true := by
  intro events
  induction events with
  | nil => intro s hs; simpa [RunLoop] using hs
  | cons e rest ih =>
    intro s hs
    have hs2 : (afterRecv (observe s e) e).stop = true := by
      rw [afterRecv_stop, observe_stop, hs, Bool.true_or]
    by_cases hc : e.rv ≠ 0 ∧ 0 ≤ e.rv
    · simp [RunLoop, hc, hs2]
    · simp [RunLoop, hc, hs2]

theorem RunLoop_stop_frame (qh cb : Nat) :
    ∀ (events : List BufEvent) (s : NetfilterState),
    (∀ e ∈ events, e.stopWrite = false) →
    ((RunLoop qh cb s events).2.2.1).stop = s.stop := by
  intro events
  induction events with
  | nil => intro s _; simp [RunLoop]
  | cons e rest ih =>
    intro s hw
    have he : e.stopWrite = false := hw e (by simp)
    have hst : (afterRecv (observe s e) e).stop = s.stop := by
      rw [afterRecv_stop, observe_stop, he, Bool.or_false]
    by_cases hc : e.rv ≠ 0 ∧ 0 ≤ e.rv
    · by_cases hstop : (afterRecv (observe s e) e).stop = true
      · simp [RunLoop, hc, hstop, ← hst]
      · have hstop' : (afterRecv (observe s e) e).stop = false := by
          cases h : (afterRecv (observe s e) e).stop with
          | true => exact absurd h hstop
          | false => rfl
        have hsfalse : s.stop = false := by rw [← hst]; exact hstop'
        by_cases hcr : (nfq_handle_packet false qh cb e.msgs).2 = true
        · simp [RunLoop, hc, hstop', hcr, hsfalse]
        · have hcr' : (nfq_handle_packet false qh cb e.msgs).2 = false := by
            cases h : (nfq_handle_packet false qh cb e.msgs).2 with
            | true => exact absurd h hcr
            | false => rfl
          have ihs := ih (afterRecv (observe s e) e) (fun x hx => hw x (by simp [hx]))
          rw [hst] at ihs
          simp [RunLoop, hc, hstop', hcr', ihs]
    · simp [RunLoop, hc, ← hst]

theorem RunLoop_exit_aux (qh cb : Nat) :
    ∀ (events : List BufEvent) (s : NetfilterState),
    (∀ e ∈ events, ∀ m ∈ e.msgs, m.hdr ≠ none) →
    (RunLoop qh cb s events).2.2.2 =
      match claimedExitEvent s.stop events with
      | some e => RunOutcome.returned (if e.rv < 0 then e.err else s.errno)
      | none => RunOutcome.blocked := by
  intro events
  induction events with
  | nil => intro s _; simp [RunLoop, claimedExitEvent]
  | cons e rest ih =>
    intro s hwf
    have hst : (afterRecv (observe s e) e).stop = (s.stop || e.stopWrite) := by
      rw [afterRecv_stop, observe_stop]
    have herr : (afterRecv (observe s e) e).errno = if e.rv < 0 then e.err else s.errno := by
      rw [afterRecv_errno, observe_errno]
    by_cases hc : e.rv ≠ 0 ∧ 0 ≤ e.rv
    · have hrvpos : 0 < e.rv := by omega
      have hrn : ¬ e.rv < 0 := by omega
      by_cases hub : (s.stop || e.stopWrite) = true
      · have hcond : e.rv = 0 ∨ e.rv < 0 ∨ (0 < e.rv ∧ (s.stop || e.stopWrite) = true) :=
          Or.inr (Or.inr ⟨hrvpos, hub⟩)
        have hs2 : (afterRecv (observe s e) e).stop = true := by rw [hst, hub]
        have hclaim : claimedExitEvent s.stop (e :: rest) = some e := by
          simp only [claimedExitEvent]
          exact if_pos hcond
        rw [hclaim]
        simp [RunLoop, hc, hs2, herr, hrn]
      · have hub' : (s.stop || e.stopWrite) = false := by
          cases h : (s.stop || e.stopWrite) with
          | true => exact absurd h hub
          | false => rfl
        have hs2stop : (afterRecv (observe s e) e).stop = false := by rw [hst, hub']
        have hs2err : (afterRecv (observe s e) e).errno = s.errno := by
          rw [herr, if_neg hrn]
        have hnc : (nfq_handle_packet false qh cb e.msgs).2 = false :=
          handle_no_crash qh cb e.msgs (hwf e (by simp))
        have hcond : ¬ (e.rv = 0 ∨ e.rv < 0 ∨ (0 < e.rv ∧ (s.stop || e.stopWrite) = true)) := by
          push_neg
          exact ⟨by omega, by omega, fun _ => by simp [hub']⟩
        have ihs := ih (afterRecv (observe s e) e)
          (fun x hx m hm => hwf x (by simp [hx]) m hm)
        rw [hs2stop, hs2err] at ihs
        have hclaim : claimedExitEvent s.stop (e :: rest) =
            claimedExitEvent (s.stop || e.stopWrite) rest := by
          simp only [claimedExitEvent]
          exact if_neg hcond
        have hrun : (RunLoop qh cb s (e :: rest)).2.2.2 =
            (RunLoop qh cb (afterRecv (observe s e) e) rest).2.2.2 := by
          simp [RunLoop, hc, hs2stop, hnc]
        rw [hrun, ihs, hclaim, hub']
    · have hcond : e.rv = 0 ∨ e.rv < 0 ∨ (0 < e.rv ∧ (s.stop || e.stopWrite) = true) := by
        by_cases h0 : e.rv = 0
        · exact Or.inl h0
        · exact Or.inr (Or.inl (by omega))
      have hclaim : claimedExitEvent s.stop (e :: rest) = some e := by
        simp only [claimedExitEvent]
        exact if_pos hcond
      rw [hclaim]
      simp [RunLoop, hc, herr]

theorem RunLoop_error_exit_aux (qh cb errno0 : Nat) (e : BufEvent) (post : List BufEvent)
    (he : e.rv < 0) (hew : e.stopWrite = false) :
    ∀ pre : List BufEvent,
    (∀ p ∈ pre, p.stopWrite = false ∧ 0 < p.rv ∧ ∀ m ∈ p.msgs, m.hdr ≠ none) →
    (RunLoop qh cb ⟨false, errno0⟩ (pre ++ e :: post)).2.2.2 = .returned e.err ∧
    (RunLoop qh cb ⟨false, errno0⟩ (pre ++ e :: post)).2.2.1 = ⟨false, e.err⟩ := by
  intro pre
  induction pre with
  | nil =>
    intro _
    have hnc : ¬ (e.rv ≠ 0 ∧ 0 ≤ e.rv) := by omega
    have hs2 : afterRecv (observe ⟨false, errno0⟩ e) e = ⟨false, e.err⟩ := by
      simp [observe, hew, afterRecv, he]
    simp [RunLoop, hnc, hs2]
  | cons p pre' ih =>
    intro hp
    have hpw : p.stopWrite = false := (hp p (by simp)).1
    have hprv : 0 < p.rv := (hp p (by simp)).2.1
    have hphdr : ∀ m ∈ p.msgs, m.hdr ≠ none := (hp p (by simp)).2.2
    have hs2 : afterRecv (observe ⟨false, errno0⟩ p) p = ⟨false, errno0⟩ := by
      simp [observe, hpw, afterRecv]
      omega
    have hc : p.rv ≠ 0 ∧ 0 ≤ p.rv := ⟨by omega, by omega⟩
    have hnc : (nfq_handle_packet false qh cb p.msgs).2 = false :=
      handle_no_crash qh cb p.msgs hphdr
    have ihs := ih (fun x hx => hp x (by simp [hx]))
    simp [List.cons_append, RunLoop, hc, hs2, hnc, ihs]

/-! Claim theorems. -/

/-- Claim C1: for every decoded packet notification processed while the stop
flag is unset, nf_callback invokes go_callback exactly once, synchronously,
with the packet id extracted from the notification header converted by
ntohl, the raw payload bytes, the payload length, the binding index decoded
from the callback token, and the queue handle, and returns 0 without
issuing any verdict itself. -/
theorem nf_callback_dispatches_once (qh : Nat) (nfa : Notification) (cb : Nat)
    (ph : PacketHdr) (h : nfa.hdr = some ph) :
    nf_callback false qh nfa cb =
      (.ret 0, [.getMsgPacketHdr, .getPayload,
        .callGo ⟨ntohl ph.packet_id, (nfq_get_payload nfa).2, (nfq_get_payload nfa).1,
                 cb % 2 ^ 32, qh⟩]) ∧
    (nf_callback false qh nfa cb).2.filter NfAction.isCallGo =
      [.callGo ⟨ntohl ph.packet_id, (nfq_get_payload nfa).2, (nfq_get_payload nfa).1,
                cb % 2 ^ 32, qh⟩] ∧
    (∀ q i v, NfAction.setVerdict q i v ∉ (nf_callback false qh nfa cb).2) := by
  refine ⟨?_, ?_, ?_⟩ <;> simp [nf_callback, h, NfAction.isCallGo, List.filter]

/-- Witness for C1, the spec scenario: packet id 42 (network byte order
0x2A000000 on a little-endian host), payload 45 00 00 14, binding index 7,
queue handle 9. -/
theorem nf_callback_dispatches_once_witness :
    nf_callback false 9 ⟨some ⟨704643072⟩, some [69, 0, 0, 20]⟩ 7 =
      (.ret 0, [.getMsgPacketHdr, .getPayload,
        .callGo ⟨42, some [69, 0, 0, 20], 4, 7, 9⟩]) :=
  (nf_callback_dispatches_once 9 ⟨some ⟨704643072⟩, some [69, 0, 0, 20]⟩ 7
    ⟨704643072⟩ rfl).1.trans (by decide)

/-- Claim C2: when a decoded packet notification lacks a packet header,
nf_callback dereferences the NULL header pointer, i.e. fails fatally,
aborting the buffer without invoking go_callback; and a missing header
while the stop flag is unset is the only condition under which it fails
fatally. -/
theorem nf_callback_fatal_iff_missing_header (stop : Bool) (qh : Nat)
    (nfa : Notification) (cb : Nat) (rest : List Notification) :
    ((nf_callback stop qh nfa cb).1 = .crash ↔ stop = false ∧ nfa.hdr = none) ∧
    (nfa.hdr = none →
      (∀ c, NfAction.callGo c ∉ (nf_callback stop qh nfa cb).2) ∧
      nfq_handle_packet false qh cb (nfa :: rest) = ([.getMsgPacketHdr], true)) := by
  constructor
  · cases stop with
    | true => simp [nf_callback]
    | false =>
      cases hh : nfa.hdr with
      | none => simp [nf_callback, hh]
      | some ph => simp [nf_callback, hh]
  · intro hh
    constructor
    · intro c
      cases stop with
      | true => simp [nf_callback]
      | false => simp [nf_callback, hh]
    · simp [nfq_handle_packet, nf_callback, hh]

/-- Witness for C2: a headerless notification crashes the bridge and aborts
the rest of the buffer with go_callback never invoked. -/
theorem nf_callback_fatal_iff_missing_header_witness :
    (nf_callback false 9 ⟨none, none⟩ 7).1 = NfResult.crash ∧
    nfq_handle_packet false 9 7 [⟨none, none⟩] = ([NfAction.getMsgPacketHdr], true) :=
  have h := nf_callback_fatal_iff_missing_header false 9 ⟨none, none⟩ 7 []
  ⟨h.1.mpr ⟨rfl, rfl⟩, (h.2 rfl).2⟩

/-- Claim C3: for every 32-bit binding index idx, the callback token that
CreateQueue registers for idx decodes back (by the 32-bit truncation in
nf_callback) to idx itself, so a notification on that binding is dispatched
to go_callback with exactly that binding's index. -/
theorem binding_index_roundtrip (h q idx : Nat) (hidx : idx < 2 ^ 32)
    (qh : Nat) (nfa : Notification) (ph : PacketHdr) (hph : nfa.hdr = some ph) :
    (CreateQueue h q idx).cb_token % 2 ^ 32 = idx ∧
    NfAction.callGo ⟨ntohl ph.packet_id, (nfq_get_payload nfa).2, (nfq_get_payload nfa).1,
        idx, qh⟩ ∈ (nf_callback false qh nfa (CreateQueue h q idx).cb_token).2 := by
  have hx : idx % 2 ^ 32 = idx := Nat.mod_eq_of_lt hidx
  have hx' : idx % 4294967296 = idx := hx
  have htok : (CreateQueue h q idx).cb_token = idx := hx
  constructor
  · rw [htok]
    exact hx
  · rw [htok]
    simp [nf_callback, hph, hx, hx']

/-- Witness for C3 at binding index 7 on queue 0. -/
theorem binding_index_roundtrip_witness :
    (CreateQueue 1 0 7).cb_token % 2 ^ 32 = 7 ∧
    NfAction.callGo ⟨42, some [69, 0, 0, 20], 4, 7, 9⟩ ∈
      (nf_callback false 9 ⟨some ⟨704643072⟩, some [69, 0, 0, 20]⟩
        (CreateQueue 1 0 7).cb_token).2 :=
  have h := binding_index_roundtrip 1 0 7 (by decide) 9
    ⟨some ⟨704643072⟩, some [69, 0, 0, 20]⟩ ⟨704643072⟩ rfl
  ⟨h.1, by
    have h2 := h.2
    rw [show (⟨ntohl 704643072, (nfq_get_payload ⟨some ⟨704643072⟩, some [69, 0, 0, 20]⟩).2,
        (nfq_get_payload ⟨some ⟨704643072⟩, some [69, 0, 0, 20]⟩).1, 7, 9⟩ : GoCall) =
        ⟨42, some [69, 0, 0, 20], 4, 7, 9⟩ from by decide] at h2
    exact h2⟩

/-- Claim C5: if the stop flag is set when nf_callback is invoked, it
returns -1 without invoking go_callback and without touching the header or
payload accessors, and the decode layer then aborts the rest of the
buffer, performing no external calls at all. -/
theorem nf_callback_stop_refuses (qh : Nat) (nfa : Notification) (cb : Nat)
    (n : Notification) (rest : List Notification) :
    nf_callback true qh nfa cb = (.ret (-1), []) ∧
    nfq_handle_packet true qh cb (n :: rest) = ([], false) := by
  constructor
  · simp [nf_callback]
  · simp [nfq_handle_packet, nf_callback]

/-- Claim C10: with the stop flag unset and the header present, nf_callback
passes the raw nfq_get_payload return value as the length argument of
go_callback without inspecting it, and a payload-extraction failure still
yields return 0, with go_callback invoked with length -1 and a NULL
payload pointer. -/
theorem nf_callback_payload_raw (qh : Nat) (nfa : Notification) (cb : Nat)
    (ph : PacketHdr) (h : nfa.hdr = some ph) :
    (nf_callback false qh nfa cb).1 = .ret 0 ∧
    (nf_callback false qh nfa cb).2 =
      [.getMsgPacketHdr, .getPayload,
       .callGo ⟨ntohl ph.packet_id, (nfq_get_payload nfa).2, (nfq_get_payload nfa).1,
                cb % 2 ^ 32, qh⟩] ∧
    (nfa.payload = none →
      (nfq_get_payload nfa).1 = -1 ∧ (nfq_get_payload nfa).1 < 0 ∧
      (nfq_get_payload nfa).2 = none) := by
  refine ⟨by simp [nf_callback, h], by simp [nf_callback, h],
    fun hp => by simp [nfq_get_payload, hp]⟩

/-- Witness for C10: payload extraction fails, go_callback still runs with
length -1 and NULL data, and nf_callback returns 0. -/
theorem nf_callback_payload_raw_witness :
    (nf_callback false 9 ⟨some ⟨1⟩, none⟩ 7).1 = NfResult.ret 0 ∧
    (nf_callback false 9 ⟨some ⟨1⟩, none⟩ 7).2 =
      [.getMsgPacketHdr, .getPayload, .callGo ⟨16777216, none, -1, 7, 9⟩] ∧
    (nfq_get_payload ⟨some ⟨1⟩, none⟩).1 < 0 :=
  have h := nf_callback_payload_raw 9 ⟨some ⟨1⟩, none⟩ 7 ⟨1⟩ rfl
  ⟨h.1, h.2.1.trans (by decide), (h.2.2 rfl).2.1⟩

/-- Claim C4: provided every decoded notification carries a header (no
crash), Run's receive loop exits exactly at the first event whose receive
result is zero bytes or negative, or whose successful receive observes the
stop flag set; and on every exit path it returns the errno then in effect:
the receive error code if the receive failed, otherwise the errno carried
into the loop, which may be zero. -/
theorem Run_exit_characterisation (fd qh cb : Nat) (s : NetfilterState)
    (events : List BufEvent)
    (hwf : ∀ e ∈ events, ∀ m ∈ e.msgs, m.hdr ≠ none) :
    (Run fd qh cb s events).2.2.2 =
      match claimedExitEvent s.stop events with
      | some e => RunOutcome.returned (if e.rv < 0 then e.err else s.errno)
      | none => RunOutcome.blocked := by
  have h := RunLoop_exit_aux qh cb events s hwf
  simpa [Run] using h

/-- Witness for C4: two iterations, a successful receive then a failing
one; the loop exits at the failing receive and returns its error code. -/
theorem Run_exit_characterisation_witness :
    (Run 3 9 7 ⟨false, 0⟩
      [⟨4, 0, false, [⟨some ⟨0⟩, some [1, 2]⟩]⟩, ⟨-1, 11, false, []⟩]).2.2.2 =
      RunOutcome.returned 11 :=
  (Run_exit_characterisation 3 9 7 ⟨false, 0⟩
    [⟨4, 0, false, [⟨some ⟨0⟩, some [1, 2]⟩]⟩, ⟨-1, 11, false, []⟩]
    (by decide)).trans (by decide)

/-- Counterexample for C6 as stated: the stop flag is set before any packet
notification is processed and a notification then arrives; go_callback is
never invoked, but Run returns the ambient errno value 5 — a nonzero
status — because the code returns errno unconditionally and a successful
recv leaves a stale errno in place. -/
theorem Run_stop_exit_errno_counterexample :
    (Run 3 9 7 ⟨true, 5⟩ [⟨1, 0, false, [⟨some ⟨42⟩, some [69]⟩]⟩]).2.1 = [] ∧
    (Run 3 9 7 ⟨true, 5⟩ [⟨1, 0, false, [⟨some ⟨42⟩, some [69]⟩]⟩]).2.2.2 =
      RunOutcome.returned 5 ∧
    (Run 3 9 7 ⟨true, 5⟩ [⟨1, 0, false, [⟨some ⟨42⟩, some [69]⟩]⟩]).2.2.2 ≠
      RunOutcome.returned 0 := by
  refine ⟨?_, ?_, ?_⟩ <;> decide

/-- Claim C6 as amended: if the stop flag is set before any packet
notification is processed, the receive loop performs zero external calls
(go_callback in particular is never invoked) and Run exits returning the
errno value currently in effect — which is 0, a non-error status, whenever
no preceding system call has failed. -/
theorem Run_stop_before_any_packet (fd qh cb errno0 : Nat) (e : BufEvent)
    (rest : List BufEvent) (hrv : 0 < e.rv) :
    (Run fd qh cb ⟨true, errno0⟩ (e :: rest)).2.1 = [] ∧
    (Run fd qh cb ⟨true, errno0⟩ (e :: rest)).2.2.2 = .returned errno0 ∧
    (errno0 = 0 →
      (Run fd qh cb ⟨true, errno0⟩ (e :: rest)).2.2.2 = .returned 0) := by
  have hst : (afterRecv (observe ⟨true, errno0⟩ e) e).stop = true := by
    rw [afterRecv_stop, observe_stop, Bool.true_or]
  have herr2 : (afterRecv (observe ⟨true, errno0⟩ e) e).errno = errno0 := by
    rw [afterRecv_errno, observe_errno, if_neg (by omega)]
  have hc : e.rv ≠ 0 ∧ 0 ≤ e.rv := ⟨by omega, by omega⟩
  have h1 : (Run fd qh cb ⟨true, errno0⟩ (e :: rest)).2.1 = [] := by
    simp [Run, RunLoop, hc, hst]
  have h2 : (Run fd qh cb ⟨true, errno0⟩ (e :: rest)).2.2.2 = .returned errno0 := by
    simp [Run, RunLoop, hc, hst, herr2]
  exact ⟨h1, h2, fun h0 => by rw [h2, h0]⟩

/-- Witness for C6 as amended: stop requested before the first packet, no
prior error; zero external calls and Run returns 0. -/
theorem Run_stop_before_any_packet_witness :
    (Run 3 9 7 ⟨true, 0⟩ [⟨1, 0, false, [⟨some ⟨42⟩, some [69]⟩]⟩]).2.1 = [] ∧
    (Run 3 9 7 ⟨true, 0⟩ [⟨1, 0, false, [⟨some ⟨42⟩, some [69]⟩]⟩]).2.2.2 =
      RunOutcome.returned 0 :=
  have h := Run_stop_before_any_packet 3 9 7 0 ⟨1, 0, false, [⟨some ⟨42⟩, some [69]⟩]⟩
    [] (by decide)
  ⟨h.1, h.2.2 rfl⟩

/-- Claim C7: the stop flag makes at most one transition, from false to
true: stop_reading_packets sets it true and is idempotent, and no
operation of the header (the receive loop, nf_callback, CreateQueue,
SetQueueFailOpen, or stop_reading_packets itself) ever takes it from true
back to false. -/
theorem stop_flag_one_way :
    (∀ s, (stop_reading_packets s).stop = true) ∧
    (∀ s, stop_reading_packets (stop_reading_packets s) = stop_reading_packets s) ∧
    (∀ s op, s.stop = true → (applyOp s op).stop = true) := by
  refine ⟨fun s => rfl, fun s => rfl, fun s op hs => ?_⟩
  cases op with
  | runLoop qh cb events => exact RunLoop_stop_monotone qh cb events s hs
  | callback _ _ _ => exact hs
  | requestStop => rfl
  | createQueue _ _ _ => exact hs
  | setFailOpen => exact hs

/-- Witness for C7: a receive loop run from a stopped state leaves the flag
set. -/
theorem stop_flag_one_way_witness :
    (applyOp ⟨true, 3⟩ (Op.runLoop 9 7 [⟨1, 0, false, []⟩])).stop = true :=
  stop_flag_one_way.2.2 ⟨true, 3⟩ (Op.runLoop 9 7 [⟨1, 0, false, []⟩]) rfl

/-- Claim C8: Run's very first socket action is setting the
NETLINK_NO_ENOBUFS option (at level SOL_NETLINK, value 1) on the bound
socket; every receive happens at a strictly later position in the trace. -/
theorem Run_setsockopt_before_recv (fd qh cb : Nat) (s : NetfilterState)
    (events : List BufEvent) :
    (Run fd qh cb s events).1.head? =
      some (.setsockopt fd SOL_NETLINK NETLINK_NO_ENOBUFS 1) ∧
    ∀ i n, (Run fd qh cb s events).1[i]? = some (RunAction.recv n) → 0 < i := by
  constructor
  · simp [Run]
  · intro i n h
    cases i with
    | zero =>
      rw [show (Run fd qh cb s events).1[0]? =
          some (RunAction.setsockopt fd SOL_NETLINK NETLINK_NO_ENOBUFS 1) from by
        simp [Run]] at h
      simp at h
    | succ k => exact Nat.succ_pos k

/-- Witness for C8: in a one-iteration run, the receive sits at position 1,
after the position-0 setsockopt. -/
theorem Run_setsockopt_before_recv_witness :
    (Run 3 9 7 ⟨false, 0⟩ [⟨1, 0, false, []⟩]).1[1]? = some (RunAction.recv 1) ∧
    0 < 1 :=
  ⟨by decide,
   (Run_setsockopt_before_recv 3 9 7 ⟨false, 0⟩ [⟨1, 0, false, []⟩]).2 1 1 (by decide)⟩

/-- Claim C9: Run never writes the stop flag: if the receive call returns a
transport error while no stop request was ever made, Run exits returning
that error code and the stop flag is still false afterwards. -/
theorem Run_error_exit_frame (fd qh cb errno0 : Nat) (pre : List BufEvent)
    (e : BufEvent) (post : List BufEvent)
    (hnw : ∀ p ∈ pre ++ e :: post, p.stopWrite = false)
    (hpre : ∀ p ∈ pre, 0 < p.rv ∧ ∀ m ∈ p.msgs, m.hdr ≠ none)
    (herr : e.rv < 0) :
    (Run fd qh cb ⟨false, errno0⟩ (pre ++ e :: post)).2.2.2 = .returned e.err ∧
    ((Run fd qh cb ⟨false, errno0⟩ (pre ++ e :: post)).2.2.1).stop = false := by
  have hew : e.stopWrite = false := hnw e (by simp)
  have h := RunLoop_error_exit_aux qh cb errno0 e post herr hew pre
    (fun p hp => ⟨hnw p (by simp [hp]), hpre p hp⟩)
  refine ⟨by simpa [Run] using h.1, ?_⟩
  have h2 := h.2
  simp [Run, h2]

/-- Witness for C9: one good iteration, then a failing receive with error
code 9 and no stop request anywhere; Run returns 9 and the flag stays
false. -/
theorem Run_error_exit_frame_witness :
    (Run 3 9 7 ⟨false, 0⟩
      ([⟨2, 0, false, [⟨some ⟨1⟩, some []⟩]⟩] ++ ⟨-1, 9, false, []⟩ :: [])).2.2.2 =
      RunOutcome.returned 9 :=
  (Run_error_exit_frame 3 9 7 0 [⟨2, 0, false, [⟨some ⟨1⟩, some []⟩]⟩]
    ⟨-1, 9, false, []⟩ [] (by decide) (by decide) (by decide)).1

end GoNfq
